import Mathlib

/-!
Verification development for the SAT question-bank scraper
(`src/data/scraper/scraper.py`).  The Python source is shallowly embedded:
pure functions become Lean functions, the stateful ingestion driver becomes
explicit state passing, network responses become an explicit oracle, and an
uncaught Python exception becomes `Except.error`.
-/

namespace SatQbank

/-! ## Python truthiness helpers

Python's `a or b` returns `a` when `a` is truthy (for strings: nonempty and
not `None`) and `b` otherwise.  These helpers mirror that on `Option String`.
-/

/-- Truthiness of an optional string: `None` and `""` are falsy. -/
def pyTruthy : Option String → Bool
  | none => false
  | some s => !(s == "")

/-- `a or b` where `a` is an optional string and `b` a plain string. -/
def pyOrS (a : Option String) (b : String) : String :=
  match a with
  | none => b
  | some s => if s == "" then b else s

/-- `a or b` on two optional strings (the result keeps the second operand
as-is when the first is falsy, exactly like Python's `or`). -/
def pyOrOpt (a b : Option String) : Option String :=
  if pyTruthy a then a else b

/-- Python's `x in xs` where `x` is an optional string and `xs` a list of
strings: `None` is never a member. -/
def optMem (o : Option String) (xs : List String) : Bool :=
  match o with
  | none => false
  | some s => xs.contains s

/-- Normalizes a Python string-or-None to `some s` exactly when it is truthy
(mirrors guards of the form `if not x: ...`). -/
def usable (o : Option String) : Option String :=
  if pyTruthy o then o else none

/-! ## HTML fragment model

BeautifulSoup's `html.parser` never fails: any input string parses to a tree.
We model a parsed fragment directly as a list of nodes.  A mutual inductive
is used (rather than `List Node`) so that all tree traversals are structural
and compute by kernel reduction. -/

mutual

inductive Node where
  | text (s : String)
  | elem (tag : String) (attrs : List (String × String)) (children : NodeList)
deriving Repr

inductive NodeList where
  | nil
  | cons (n : Node) (ns : NodeList)
deriving Repr

end

/-- Builds a `NodeList` from an ordinary list of nodes. -/
def nl : List Node → NodeList
  | [] => .nil
  | n :: ns => .cons n (nl ns)

/-- `tag.get(attr)`: first value bound to an attribute name, if any. -/
def getAttr (attrs : List (String × String)) (key : String) : Option String :=
  (attrs.find? (fun p => p.1 == key)).map (·.2)

/-- `compact_text` helper: Python `s.split()` — split on whitespace runs,
dropping empty pieces.  `acc` accumulates the current word reversed. -/
def wordsAux : List Char → List Char → List String
  | [], acc => if acc.isEmpty then [] else [String.mk acc.reverse]
  | c :: cs, acc =>
      if c.isWhitespace then
        if acc.isEmpty then wordsAux cs [] else String.mk acc.reverse :: wordsAux cs []
      else
        wordsAux cs (c :: acc)

/-- Python `s.split()` (whitespace split, empties dropped). -/
def pyWords (s : String) : List String := wordsAux s.toList []

/-- `compact_text(s)`: `" ".join(s.split())` — collapse every whitespace run
to a single space and trim both ends. -/
def compact_text (s : String) : String :=
  String.intercalate " " (pyWords s)

/-- BeautifulSoup multi-valued `class` attribute: the class string split on
whitespace. -/
def classList (attrs : List (String × String)) : List String :=
  pyWords ((getAttr attrs "class").getD "")

/-! ### Text extraction (`get_text`)

`soup.get_text(" ", strip=True)` joins the stripped text fragments with a
single space.  The scraper always post-processes the result with
`compact_text`, under which joining the raw fragments with `" "` is
equivalent; we model that composite. -/

mutual

def getTextsN : Node → List String
  | .text s => [s]
  | .elem _ _ c => getTextsC c

def getTextsC : NodeList → List String
  | .nil => []
  | .cons n ns => getTextsN n ++ getTextsC ns

end

/-- `node.get_text(" ", strip=True)` up to the trailing `compact_text`. -/
def nodeGetText (n : Node) : String := String.intercalate " " (getTextsN n)

/-- `soup.get_text(" ", strip=True)` for a whole fragment, up to the trailing
`compact_text`. -/
def docGetText (c : NodeList) : String := String.intercalate " " (getTextsC c)

/-! ### The three replacement passes of `html_to_plaintext_preserving_math_images`

Each pass mirrors a `soup.find_all(...)` loop with `replace_with`.  Replacing
an element detaches its subtree, so a match nested inside an outer match is
replaced only inside the detached subtree and never contributes to the
output; the top-down recursion that stops at a replaced element models this
exactly. -/

/-- `img.get("alt") or img.get("aria-label") or "[image]"`. -/
def imgLabel (alt ariaLabel : Option String) : String :=
  pyOrS alt (pyOrS ariaLabel "[image]")

/-- `svg.get("aria-label") or "[svg graphic]"`. -/
def svgLabel (ariaLabel : Option String) : String :=
  pyOrS ariaLabel "[svg graphic]"

mutual

def replaceImgsN : Node → Node
  | .text s => .text s
  | .elem tag attrs c =>
      if tag == "img" then
        .text (imgLabel (getAttr attrs "alt") (getAttr attrs "aria-label"))
      else
        .elem tag attrs (replaceImgsC c)

def replaceImgsC : NodeList → NodeList
  | .nil => .nil
  | .cons n ns => .cons (replaceImgsN n) (replaceImgsC ns)

end

mutual

def replaceSvgsN : Node → Node
  | .text s => .text s
  | .elem tag attrs c =>
      if tag == "svg" then
        .text (svgLabel (getAttr attrs "aria-label"))
      else
        .elem tag attrs (replaceSvgsC c)

def replaceSvgsC : NodeList → NodeList
  | .nil => .nil
  | .cons n ns => .cons (replaceSvgsN n) (replaceSvgsC ns)

end

/-- The guard of the region loop: `role="region"` together with
`"sr-only" in cls or region.get("aria-label")`. -/
def regionQualifies (attrs : List (String × String)) : Bool :=
  getAttr attrs "role" == some "region" &&
    ((classList attrs).contains "sr-only" || pyTruthy (getAttr attrs "aria-label"))

mutual

def replaceRegionsN : Node → Node
  | .text s => .text s
  | .elem tag attrs c =>
      if regionQualifies attrs then
        .text (compact_text (nodeGetText (.elem tag attrs c)))
      else
        .elem tag attrs (replaceRegionsC c)

def replaceRegionsC : NodeList → NodeList
  | .nil => .nil
  | .cons n ns => .cons (replaceRegionsN n) (replaceRegionsC ns)

end

/-- `html_to_plaintext_preserving_math_images(html)`.  The argument models a
Python `Optional[str]` markup field: `none` stands for `None` or `""` (the
`if not html` guard), `some ns` for a nonempty string as parsed by
BeautifulSoup.  The body replaces every `img` with its alt/aria-label/
`"[image]"` fallback, every `svg` with its aria-label/`"[svg graphic]"`
fallback, every qualifying hidden region with its compacted text, then
extracts and compacts the whole fragment's text. -/
def html_to_plaintext_preserving_math_images (html : Option NodeList) : String :=
  match html with
  | none => ""
  | some ns =>
      compact_text (docGetText (replaceRegionsC (replaceSvgsC (replaceImgsC ns))))

/-! ## Media extraction (`extract_media_from_html`) -/

/-- One entry of the structured media inventory, mirroring the dicts built by
`extract_media_from_html`.  (`DOWNLOAD_MEDIA` is `False` in the source, so
`downloaded_path` is always `None`.) -/
inductive MediaItem where
  | img (src : Option String) (alt : String) (aria_label : String)
      (downloaded_path : Option String)
  | svg (markup : Node) (aria_label : String) (role : String) (viewBox : String)
  | figcaption (text : String)
  | region (aria_label : String) (text : String)
deriving Repr

/-- Simplified model of the `urllib.parse.urljoin` library collaborator
(external to the repository): absolute and `data:` URLs pass through,
relative ones are resolved against the base.  No claim depends on its exact
arithmetic. -/
def urljoin (base u : String) : String :=
  if u.startsWith "http://" || u.startsWith "https://" || u.startsWith "data:" then
    u
  else
    base ++ "/" ++ u

/-- Default `base_url` of `extract_media_from_html`. -/
def BASE_URL : String := "https://satsuitequestionbank.collegeboard.org"

/-! `soup.find_all(...)` returns all matching descendants in document order,
including matches nested inside other matches (no mutation happens in
`extract_media_from_html`, so nesting is not cut off here). -/

mutual

def findAllN (p : String → List (String × String) → Bool) : Node → List Node
  | .text _ => []
  | .elem tag attrs c =>
      (if p tag attrs then [Node.elem tag attrs c] else []) ++ findAllC p c

def findAllC (p : String → List (String × String) → Bool) : NodeList → List Node
  | .nil => []
  | .cons n ns => findAllN p n ++ findAllC p ns

end

/-- Attributes of a node (empty for a text node). -/
def nodeAttrs : Node → List (String × String)
  | .text _ => []
  | .elem _ attrs _ => attrs

/-- Children of a node (empty for a text node). -/
def nodeChildren : Node → NodeList
  | .text _ => .nil
  | .elem _ _ c => c

/-- The `img` entry built for one `<img>` element:
`src = urljoin(base_url, raw_src) if raw_src else None`, with
`alt`/`aria-label` defaulted to `""`. -/
def imgMediaItem (base : String) (attrs : List (String × String)) : MediaItem :=
  .img
    (match getAttr attrs "src" with
     | none => none
     | some s => if s == "" then none else some (urljoin base s))
    (pyOrS (getAttr attrs "alt") "")
    (pyOrS (getAttr attrs "aria-label") "")
    none

/-- The `svg` entry built for one `<svg>` element. -/
def svgMediaItem (n : Node) : MediaItem :=
  .svg n
    (pyOrS (getAttr (nodeAttrs n) "aria-label") "")
    (pyOrS (getAttr (nodeAttrs n) "role") "")
    (pyOrS (getAttr (nodeAttrs n) "viewBox") (pyOrS (getAttr (nodeAttrs n) "viewbox") ""))

/-- `extract_media_from_html(html, base_url)`: collects, in pass order, all
`img` entries, all inline `svg` entries, one `figcaption` entry per `figure`
that has a figcaption descendant, and one `region` entry per qualifying
hidden long-description region. -/
def extract_media_from_html (html : Option NodeList) (base : String) : List MediaItem :=
  match html with
  | none => []
  | some ns =>
      ((findAllC (fun tag _ => tag == "img") ns).map
        (fun n => imgMediaItem base (nodeAttrs n)))
      ++ ((findAllC (fun tag _ => tag == "svg") ns).map svgMediaItem)
      ++ ((findAllC (fun tag _ => tag == "figure") ns).filterMap
        (fun fig =>
          (findAllC (fun tag _ => tag == "figcaption") (nodeChildren fig)).head?.map
            (fun cap => MediaItem.figcaption (compact_text (nodeGetText cap)))))
      ++ ((findAllC (fun _ attrs => getAttr attrs "role" == some "region") ns).filterMap
        (fun r =>
          if regionQualifies (nodeAttrs r) then
            some (MediaItem.region (pyOrS (getAttr (nodeAttrs r) "aria-label") "")
              (compact_text (nodeGetText r)))
          else none))

/-! ## Data model -/

/-- One record of the list stage (`meta` in the source); every field is a
Python string-or-None. -/
structure ListMeta where
  external_id : Option String := none
  uId : Option String := none
  questionId : Option String := none
  program : Option String := none
  primary_class_cd : Option String := none
  domain : Option String := none
  primary_class_cd_desc : Option String := none
  domain_desc : Option String := none
  skill_cd : Option String := none
  skill_desc : Option String := none
  difficulty : Option String := none
deriving Repr

/-- One raw answer option of a detail payload. -/
structure AnswerOption where
  content : Option NodeList := none
  id : Option String := none
deriving Repr

/-- The parsed detail payload for one item (markup fields are modelled like
the fields of `html_to_plaintext_preserving_math_images`: `none` stands for
a missing/`None`/empty field). -/
structure Detail where
  stimulus : Option NodeList := none
  stem : Option NodeList := none
  rationale : Option NodeList := none
  correct_answer : Option (List String) := none
  keys : Option (List String) := none
  answerOptions : Option (List AnswerOption) := none
  externalid : Option String := none
  vaultid : Option String := none
  origin : Option String := none
  type : Option String := none
  templateclusterid : Option String := none
  templateclustername : Option String := none
  parenttemplatename : Option String := none
  parenttemplateid : Option String := none
  position : Option String := none
deriving Repr

/-- One normalized answer choice (`choices_norm` element). -/
structure NormalizedChoice where
  key : Option String
  id : Option String
  text : String
  html : Option NodeList
  media : List MediaItem
  correct : Bool
deriving Repr

/-- The unified output record built by `normalize_detail`.  The source's
nested `media` dict is flattened into three fields. -/
structure NormalizedRecord where
  id : Option String
  external_id : Option String
  uId : Option String
  questionId : Option String
  program : Option String
  domain : Option String
  domain_desc : Option String
  skill_cd : Option String
  skill_desc : Option String
  difficulty : Option String
  stimulus_html : Option NodeList
  stimulus : String
  stem_html : Option NodeList
  stem : String
  rationale_html : Option NodeList
  rationale : String
  choices : List NormalizedChoice
  correct_letters : List String
  correct_ids : List String
  media_stimulus : List MediaItem
  media_stem : List MediaItem
  media_rationale : List MediaItem
  vaultid : Option String
  origin : Option String
  type : Option String
  templateclusterid : Option String
  templateclustername : Option String
  parenttemplatename : Option String
  parenttemplateid : Option String
  position : Option String
deriving Repr

/-- `list(string.ascii_uppercase)`. -/
def ascii_uppercase : List Char := "ABCDEFGHIJKLMNOPQRSTUVWXYZ".toList

/-- `alpha[i] if i < len(alpha) else None` (Python characters are one-letter
strings). -/
def assignedLetter (i : Nat) : Option String :=
  match ascii_uppercase.get? i with
  | some c => some (String.singleton c)
  | none => none

/-- Model of Python `sorted` on strings (insertion sort by `≤`). -/
def insertSorted (x : String) : List String → List String
  | [] => [x]
  | y :: ys => if x ≤ y then x :: y :: ys else y :: insertSorted x ys

/-- Model of Python `sorted` on a list of strings. -/
def pySorted (l : List String) : List String := l.foldr insertSorted []

/-- The body of the per-option loop of `normalize_detail` at index `i`. -/
def mkChoice (answer_letters correct_ids : List String) (i : Nat)
    (ch : AnswerOption) : NormalizedChoice :=
  let letter := assignedLetter i
  { key := letter
    id := ch.id
    text := html_to_plaintext_preserving_math_images ch.content
    html := ch.content
    media := extract_media_from_html ch.content BASE_URL
    correct := optMem letter answer_letters || optMem ch.id correct_ids }

/-- `for i, ch in enumerate(...)`: builds the normalized choices starting at
index `i`. -/
def mkChoicesFrom (answer_letters correct_ids : List String) :
    Nat → List AnswerOption → List NormalizedChoice
  | _, [] => []
  | i, ch :: rest =>
      mkChoice answer_letters correct_ids i ch ::
        mkChoicesFrom answer_letters correct_ids (i + 1) rest

/-- `normalize_detail(detail, meta)` with media download disabled
(`DOWNLOAD_MEDIA = False` in the source). -/
def normalize_detail (detail : Detail) (meta : ListMeta) : NormalizedRecord :=
  let answer_letters := detail.correct_answer.getD []
  let correct_ids := detail.keys.getD []
  let choices_norm :=
    mkChoicesFrom answer_letters correct_ids 0 (detail.answerOptions.getD [])
  let q_id :=
    pyOrOpt detail.externalid
      (pyOrOpt meta.external_id (pyOrOpt meta.uId meta.questionId))
  { id := q_id
    external_id := meta.external_id
    uId := meta.uId
    questionId := meta.questionId
    program := meta.program
    domain := pyOrOpt meta.primary_class_cd meta.domain
    domain_desc := pyOrOpt meta.primary_class_cd_desc meta.domain_desc
    skill_cd := meta.skill_cd
    skill_desc := meta.skill_desc
    difficulty := meta.difficulty
    stimulus_html := detail.stimulus
    stimulus := html_to_plaintext_preserving_math_images detail.stimulus
    stem_html := detail.stem
    stem := html_to_plaintext_preserving_math_images detail.stem
    rationale_html := detail.rationale
    rationale := html_to_plaintext_preserving_math_images detail.rationale
    choices := choices_norm
    correct_letters := pySorted answer_letters
    correct_ids := correct_ids
    media_stimulus := extract_media_from_html detail.stimulus BASE_URL
    media_stem := extract_media_from_html detail.stem BASE_URL
    media_rationale := extract_media_from_html detail.rationale BASE_URL
    vaultid := detail.vaultid
    origin := detail.origin
    type := detail.type
    templateclusterid := detail.templateclusterid
    templateclustername := detail.templateclustername
    parenttemplatename := detail.parenttemplatename
    parenttemplateid := detail.parenttemplateid
    position := detail.position }

/-! ## Resilient fetcher (`fetch_detail_strong`)

The network is modelled as a scripted list of per-attempt responses. -/

/-- The raw JSON object of one successful HTTP response, as far as the
classification in `fetch_detail_strong` inspects it: `nosuchkey` is the
value of the `is_nosuchkey` sentinel test on the raw object, and
`has_content_key` is `any(key in data for key in ("answerOptions", "stem",
"stimulus"))` — key *presence* on the raw dict, which is independent of the
(possibly null/empty) field values recorded in `detail`. -/
structure Payload where
  detail : Detail
  nosuchkey : Bool
  has_content_key : Bool
deriving Repr

/-- One attempt's outcome: `failed` covers a soft HTTP status (429/5xx), a
timeout, a connection failure, or a JSON parse error — everything that takes
the `except` path or the explicit soft-status raise. -/
inductive Response where
  | failed
  | ok (p : Payload)
deriving Repr

/-- `fetch_detail_strong(session, external_id, tries, timeout)`: walks the
scripted responses, one per attempt, with the source's classification:
sentinel payload → `None` immediately; payload with a content key → success;
otherwise retry until the attempt budget is exhausted (an exhausted budget,
and an empty script, yield `None`).  Sleeping/backoff has no observable
effect in this model. -/
def fetch_detail_strong : List Response → Nat → Option Detail
  | _, 0 => none
  | [], _ + 1 => none
  | .failed :: rest, t + 1 => if t = 0 then none else fetch_detail_strong rest t
  | .ok p :: rest, t + 1 =>
      if p.nosuchkey then none
      else if p.has_content_key then some p.detail
      else if t = 0 then none else fetch_detail_strong rest t

/-! ## Detail cache (`get_detail_with_cache`) -/

/-- One on-disk cache file: either a deserializable detail record or a
corrupt/unreadable entry (on which `json.load` raises). -/
inductive CacheEntry where
  | good (d : Detail)
  | corrupt
deriving Repr

/-- The cache directory: an association list keyed by external identifier,
most recent entry first. -/
def Cache := List (String × CacheEntry)

/-- `cache_path(external_id).exists()` plus reading the file. -/
def cache_read (c : Cache) (id : String) : Option CacheEntry :=
  (c.find? (fun e => e.1 == id)).map (·.2)

/-- Observable outcome of one `get_detail_with_cache` call.  `result` is
`Except.error ()` when the call raises (the uncaught `json.load` exception
on a corrupt entry); `fetched` records whether `fetch_detail_strong` ran. -/
structure LookupOutcome where
  result : Except Unit (Option Detail)
  cache : Cache
  fetched : Bool

/-- `get_detail_with_cache(session, external_id)`: return the cached record
on a hit; otherwise fetch with the default budget of 5 tries, and on success
write the record into the cache. -/
def get_detail_with_cache (c : Cache) (id : String) (responses : List Response) :
    LookupOutcome :=
  match cache_read c id with
  | some (.good d) => ⟨.ok (some d), c, false⟩
  | some .corrupt => ⟨.error (), c, false⟩
  | none =>
      match fetch_detail_strong responses 5 with
      | none => ⟨.ok none, c, true⟩
      | some d => ⟨.ok (some d), (id, .good d) :: c, true⟩

/-! ## Ingestion driver (`main`) -/

/-- Mutable state of the primary loop of `main`. -/
structure DriverState where
  normalized : List NormalizedRecord
  seen : List String
  cache : Cache
  failures : List (String × String)

/-- `meta.get("questionId") or meta.get("uId") or "unknown"`. -/
def failureIdFor (m : ListMeta) : String :=
  pyOrS m.questionId (pyOrS m.uId "unknown")

/-- One iteration of the primary loop.  `responses` scripts the network per
identifier.  An uncaught exception (corrupt cache entry) aborts the run. -/
def step (responses : String → List Response) (st : DriverState) (m : ListMeta) :
    Except Unit DriverState :=
  match usable m.external_id with
  | none =>
      .ok { st with failures := st.failures ++ [("missing_external_id", failureIdFor m)] }
  | some ext =>
      if ext ∈ st.seen then .ok st
      else
        match get_detail_with_cache st.cache ext (responses ext) with
        | ⟨.error _, _, _⟩ => .error ()
        | ⟨.ok none, c2, _⟩ =>
            .ok { st with
              cache := c2
              failures := st.failures ++ [("missing_or_timeout", ext)] }
        | ⟨.ok (some d), c2, _⟩ =>
            .ok { st with
              cache := c2
              normalized := st.normalized ++ [normalize_detail d m]
              seen := st.seen ++ [ext] }

/-- The primary loop over the work queue (checkpointing and printing are
no-ops in this model). -/
def primaryPass (responses : String → List Response) (records : List ListMeta)
    (st : DriverState) : Except Unit DriverState :=
  records.foldlM (step responses) st

/-- `{q.get("external_id") for q in normalized if q.get("external_id")}` —
the truthy external identifiers of the accumulated output, in order. -/
def doneSet (normalized : List NormalizedRecord) : List String :=
  normalized.filterMap (fun q => usable q.external_id)

/-- A `ListMeta` with every field absent (Python `{}`). -/
def emptyListMeta : ListMeta := {}

/-- `by_ext = {m.get("external_id"): m for m in records if m.get("external_id")}`
followed by `by_ext.get(ext, {})` — the last record with that truthy
external identifier, defaulting to the empty mapping. -/
def by_ext (records : List ListMeta) (ext : String) : ListMeta :=
  ((records.filter (fun m => usable m.external_id == some ext)).getLast?).getD
    emptyListMeta

/-- One iteration of the recovery sweep: refetch with the larger budget
(`tries=6`), and on success normalize against the matching meta and append. -/
def sweepStep (retryResponses : String → List Response) (records : List ListMeta)
    (acc : List NormalizedRecord) (ext : String) : List NormalizedRecord :=
  match fetch_detail_strong (retryResponses ext) 6 with
  | none => acc
  | some d => acc ++ [normalize_detail d (by_ext records ext)]

/-- Observable result of one run of `main`: the final output set, the
recorded failure list of the primary pass, and the identifiers the recovery
sweep attempted (the shuffled `todo` list). -/
structure RunResult where
  normalized : List NormalizedRecord
  failures : List (String × String)
  retriedIds : List String

/-- `main()`, given: a primary and a retry network script, the
`random.shuffle` permutation, the work queue, the previously persisted
output (`normalized` at startup), and the initial cache directory.  The
resumption set is rebuilt from the persisted output; after the primary pass,
`todo = [ext for _, ext in failures if ext not in done]` is shuffled and
swept.  (The source guards the sweep behind `if failures:`, which only skips
a no-op when `failures` is empty.) -/
def run_main (responses retryResponses : String → List Response)
    (shuffle : List String → List String) (records : List ListMeta)
    (normalized₀ : List NormalizedRecord) (cache₀ : Cache) :
    Except Unit RunResult :=
  let st₀ : DriverState := ⟨normalized₀, doneSet normalized₀, cache₀, []⟩
  (primaryPass responses records st₀).map (fun st =>
    let done := doneSet st.normalized
    let todo := shuffle ((st.failures.map Prod.snd).filter (fun e => !done.contains e))
    ⟨todo.foldl (sweepStep retryResponses records) st.normalized, st.failures, todo⟩)

/-! ## Helper lemmas -/

theorem optMem_iff (o : Option String) (xs : List String) :
    optMem o xs = true ↔ ∃ s, o = some s ∧ s ∈ xs := by
  cases o <;> simp [optMem]

theorem normalize_detail_choices (d : Detail) (m : ListMeta) :
    (normalize_detail d m).choices =
      mkChoicesFrom (d.correct_answer.getD []) (d.keys.getD []) 0
        (d.answerOptions.getD []) := rfl

theorem mkChoicesFrom_fields (L I : List String) :
    ∀ (opts : List AnswerOption) (i : Nat) (c : NormalizedChoice),
      c ∈ mkChoicesFrom L I i opts →
      c.correct = (optMem c.key L || optMem c.id I) ∧
      c.text = html_to_plaintext_preserving_math_images c.html ∧
      c.media = extract_media_from_html c.html BASE_URL := by
  intro opts
  induction opts with
  | nil => intro i c h; simp [mkChoicesFrom] at h
  | cons ch rest ih =>
      intro i c h
      rw [mkChoicesFrom] at h
      rcases List.mem_cons.1 h with h | h
      · subst h; exact ⟨rfl, rfl, rfl⟩
      · exact ih (i + 1) c h

theorem mkChoicesFrom_get? (L I : List String) :
    ∀ (opts : List AnswerOption) (j i : Nat),
      (mkChoicesFrom L I j opts).get? i =
        (opts.get? i).map (fun ch => mkChoice L I (j + i) ch) := by
  intro opts
  induction opts with
  | nil => intro j i; simp [mkChoicesFrom]
  | cons ch rest ih =>
      intro j i
      cases i with
      | zero => simp [mkChoicesFrom]
      | succ n =>
          simp only [mkChoicesFrom, List.get?_cons_succ, ih (j + 1) n]
          have : j + 1 + n = j + (n + 1) := by omega
          rw [this]

theorem mkChoicesFrom_length (L I : List String) :
    ∀ (opts : List AnswerOption) (j : Nat),
      (mkChoicesFrom L I j opts).length = opts.length := by
  intro opts
  induction opts with
  | nil => intro j; rfl
  | cons ch rest ih => intro j; simp [mkChoicesFrom, ih (j + 1)]

/-! ## Claim theorems -/

/-- Claim C1: for every normalized answer choice, its `correct` boolean is
true iff its positionally assigned letter is in the record's accepted-letters
set (`correct_answer`) or its upstream option identifier is in the record's
accepted-identifiers set (`keys`); either signal alone suffices. -/
theorem choice_correct_iff_letter_or_id (d : Detail) (m : ListMeta)
    (c : NormalizedChoice) (hc : c ∈ (normalize_detail d m).choices) :
    c.correct = true ↔
      (∃ l, c.key = some l ∧ l ∈ d.correct_answer.getD []) ∨
      (∃ i, c.id = some i ∧ i ∈ d.keys.getD []) := by
  rw [normalize_detail_choices] at hc
  rw [(mkChoicesFrom_fields _ _ _ _ _ hc).1, Bool.or_eq_true, optMem_iff, optMem_iff]

def dC1 : Detail :=
  { correct_answer := some ["B"], keys := some ["k1"],
    answerOptions := some [{ id := some "kA" }, { id := some "kB" }] }

def cC1 : NormalizedChoice := mkChoice ["B"] ["k1"] 1 { id := some "kB" }

/-- Witness for C1: the OR-rule instantiated on a concrete two-option
record whose second choice is lettered "B". -/
theorem choice_correct_iff_letter_or_id_witness :
    cC1.correct = true ↔
      (∃ l, cC1.key = some l ∧ l ∈ dC1.correct_answer.getD []) ∨
      (∃ i, cC1.id = some i ∧ i ∈ dC1.keys.getD []) :=
  choice_correct_iff_letter_or_id dC1 {} cC1
    (by rw [normalize_detail_choices]
        exact List.mem_cons_of_mem _ (List.mem_cons_self _ _))

/-- Claim C6: letter assignment is strictly positional — the choice at index
`i` carries `assignedLetter i` (`alpha[i]` when `i < 26`), the choice list is
as long as the upstream option list, the assigned letter is independent of
the option's markup and identifier, and for `i < 26` the letter is the i-th
uppercase alphabet letter `A`, `B`, `C`, …. -/
theorem letters_assigned_positionally :
    (∀ (d : Detail) (m : ListMeta) (i : Nat) (c : NormalizedChoice),
        (normalize_detail d m).choices.get? i = some c → c.key = assignedLetter i) ∧
    (∀ (d : Detail) (m : ListMeta),
        (normalize_detail d m).choices.length = (d.answerOptions.getD []).length) ∧
    (∀ (L I : List String) (i : Nat) (ch ch2 : AnswerOption),
        (mkChoice L I i ch).key = (mkChoice L I i ch2).key) ∧
    (∀ i : Fin 26, assignedLetter i.val = some (String.singleton (Char.ofNat (65 + i.val)))) := by
  refine ⟨?_, ?_, ?_, ?_⟩
  · intro d m i c h
    rw [normalize_detail_choices, mkChoicesFrom_get?] at h
    cases hop : (d.answerOptions.getD []).get? i with
    | none => rw [hop] at h; simp at h
    | some ch =>
        rw [hop] at h
        simp only [Option.map] at h
        cases h
        simp [mkChoice, Nat.zero_add]
  · intro d m
    rw [normalize_detail_choices]
    exact mkChoicesFrom_length _ _ _ _
  · intro L I i ch ch2; rfl
  · decide

def dC6 : Detail := { answerOptions := some [{}, {}, {}, {}] }

/-- Witness for C6: on a concrete four-option record, the choice at index 1
carries letter "B". -/
theorem letters_assigned_positionally_witness :
    (mkChoice [] [] 1 {}).key = assignedLetter 1 ∧ assignedLetter 1 = some "B" :=
  ⟨letters_assigned_positionally.1 dC6 {} 1 (mkChoice [] [] 1 {}) rfl, by decide⟩

def exampleFigureHtml : NodeList :=
  nl [Node.text "The figure ",
      Node.elem "img" [("alt", "triangle diagram")] (nl []),
      Node.text " shows angles"]

def exampleBareImgHtml : NodeList :=
  nl [Node.text "see ", Node.elem "img" [] (nl []), Node.text " here"]

/-- Claim C5: the plaintext mirror replaces each image element with its alt
text, falling back to its aria-label, falling back to "[image]"; replaces
each inline SVG with its aria-label, falling back to "[svg graphic]";
inlines the text of qualifying visually-hidden regions; then collapses
whitespace runs to single spaces and trims.  The conjuncts state the
replacement of each element kind, the fallback chains, the pass
composition, and the spec's two concrete test fragments. -/
theorem plaintext_mirror_construction :
    (∀ (attrs : List (String × String)) (c : NodeList),
        replaceImgsN (.elem "img" attrs c) =
          .text (imgLabel (getAttr attrs "alt") (getAttr attrs "aria-label"))) ∧
    (∀ (s : String) (o : Option String), ¬ s = "" → imgLabel (some s) o = s) ∧
    (∀ (o : Option String) (t : String),
        pyTruthy o = false → ¬ t = "" → imgLabel o (some t) = t) ∧
    (∀ o o2 : Option String,
        pyTruthy o = false → pyTruthy o2 = false → imgLabel o o2 = "[image]") ∧
    (∀ (attrs : List (String × String)) (c : NodeList),
        replaceSvgsN (.elem "svg" attrs c) =
          .text (svgLabel (getAttr attrs "aria-label"))) ∧
    (∀ t : String, ¬ t = "" → svgLabel (some t) = t) ∧
    (∀ o : Option String, pyTruthy o = false → svgLabel o = "[svg graphic]") ∧
    (∀ (tag : String) (attrs : List (String × String)) (c : NodeList),
        regionQualifies attrs = true →
        replaceRegionsN (.elem tag attrs c) =
          .text (compact_text (nodeGetText (.elem tag attrs c)))) ∧
    (∀ ns : NodeList,
        html_to_plaintext_preserving_math_images (some ns) =
          compact_text (docGetText (replaceRegionsC (replaceSvgsC (replaceImgsC ns))))) ∧
    html_to_plaintext_preserving_math_images (some exampleFigureHtml) =
      "The figure triangle diagram shows angles" ∧
    html_to_plaintext_preserving_math_images (some exampleBareImgHtml) =
      "see [image] here" := by
  refine ⟨?_, ?_, ?_, ?_, ?_, ?_, ?_, ?_, fun ns => rfl, by decide, by decide⟩
  · intro attrs c; simp [replaceImgsN]
  · intro s o h; simp [imgLabel, pyOrS, h]
  · intro o t ho ht
    cases o with
    | none => simp [imgLabel, pyOrS, ht]
    | some s =>
        have hs : s = "" := by simpa [pyTruthy] using ho
        simp [imgLabel, pyOrS, hs, ht]
  · intro o o2 ho ho2
    cases o with
    | none =>
        cases o2 with
        | none => rfl
        | some s2 =>
            have : s2 = "" := by simpa [pyTruthy] using ho2
            simp [imgLabel, pyOrS, this]
    | some s =>
        have hs : s = "" := by simpa [pyTruthy] using ho
        cases o2 with
        | none => simp [imgLabel, pyOrS, hs]
        | some s2 =>
            have : s2 = "" := by simpa [pyTruthy] using ho2
            simp [imgLabel, pyOrS, hs, this]
  · intro attrs c; simp [replaceSvgsN]
  · intro t h; simp [svgLabel, pyOrS, h]
  · intro o ho
    cases o with
    | none => rfl
    | some s =>
        have : s = "" := by simpa [pyTruthy] using ho
        simp [svgLabel, pyOrS, this]
  · intro tag attrs c h; simp [replaceRegionsN, h]

/-- Witness for C5: the fallback chains and the region replacement applied
at concrete inputs. -/
theorem plaintext_mirror_construction_witness :
    imgLabel (some "triangle diagram") none = "triangle diagram" ∧
    imgLabel none (some "circle") = "circle" ∧
    imgLabel none none = "[image]" ∧
    svgLabel (some "chart") = "chart" ∧
    svgLabel none = "[svg graphic]" ∧
    replaceRegionsN (.elem "div" [("role", "region"), ("class", "sr-only")]
        (nl [Node.text "hidden"])) =
      .text (compact_text (nodeGetText (.elem "div"
        [("role", "region"), ("class", "sr-only")] (nl [Node.text "hidden"])))) :=
  ⟨plaintext_mirror_construction.2.1 "triangle diagram" none (by decide),
   plaintext_mirror_construction.2.2.1 none "circle" rfl (by decide),
   plaintext_mirror_construction.2.2.2.1 none none rfl rfl,
   plaintext_mirror_construction.2.2.2.2.2.1 "chart" (by decide),
   plaintext_mirror_construction.2.2.2.2.2.2.1 none rfl,
   plaintext_mirror_construction.2.2.2.2.2.2.2.1 "div"
     [("role", "region"), ("class", "sr-only")] (nl [Node.text "hidden"]) (by decide)⟩

/-- Claim C10: an image whose `alt` attribute is the empty string is treated
exactly like one with no `alt` at all — the empty alt never becomes the
replacement text; the replacement falls back to the aria-label and then to
"[image]", and an empty aria-label likewise falls through to "[image]". -/
theorem empty_alt_treated_as_absent :
    (∀ ariaLabel : Option String,
        imgLabel (some "") ariaLabel = imgLabel none ariaLabel) ∧
    imgLabel (some "") (some "") = "[image]" ∧
    imgLabel none (some "") = "[image]" ∧
    html_to_plaintext_preserving_math_images
        (some (nl [Node.elem "img" [("alt", "")] (nl [])])) = "[image]" ∧
    html_to_plaintext_preserving_math_images
        (some (nl [Node.elem "img" [("alt", ""), ("aria-label", "lbl")] (nl [])])) = "lbl" ∧
    html_to_plaintext_preserving_math_images
        (some (nl [Node.elem "img" [("alt", ""), ("aria-label", "")] (nl [])])) = "[image]" :=
  ⟨fun o => rfl, rfl, rfl, by decide, by decide, by decide⟩

/-- Claim C9: the content normalizer is a total function of its inputs
(modelled here as total Lean functions — BeautifulSoup's `html.parser`
accepts any input, so no markup field can make it raise), and a missing or
empty markup field degrades to an empty plaintext string and an empty media
list instead of failing the whole record. -/
theorem normalizer_degrades_gracefully :
    html_to_plaintext_preserving_math_images none = "" ∧
    extract_media_from_html none BASE_URL = [] ∧
    (∀ (d : Detail) (m : ListMeta),
        d.stimulus = none → d.stem = none → d.rationale = none →
        (normalize_detail d m).stimulus = "" ∧
        (normalize_detail d m).stem = "" ∧
        (normalize_detail d m).rationale = "" ∧
        (normalize_detail d m).media_stimulus = [] ∧
        (normalize_detail d m).media_stem = [] ∧
        (normalize_detail d m).media_rationale = []) ∧
    (∀ (d : Detail) (m : ListMeta) (c : NormalizedChoice),
        c ∈ (normalize_detail d m).choices → c.html = none →
        c.text = "" ∧ c.media = []) := by
  refine ⟨rfl, rfl, ?_, ?_⟩
  · intro d m h1 h2 h3
    refine ⟨?_, ?_, ?_, ?_, ?_, ?_⟩ <;>
      simp [normalize_detail, h1, h2, h3, html_to_plaintext_preserving_math_images,
        extract_media_from_html]
  · intro d m c hc hnone
    rw [normalize_detail_choices] at hc
    have h := mkChoicesFrom_fields _ _ _ _ _ hc
    rw [h.2.1, h.2.2, hnone]
    exact ⟨rfl, rfl⟩

/-- Witness for C9: a record whose three markup fields are all missing
yields empty plaintext mirrors and empty media buckets, and a choice whose
markup is missing yields empty text and media. -/
theorem normalizer_degrades_gracefully_witness :
    ((normalize_detail {} {}).stimulus = "" ∧
      (normalize_detail {} {}).stem = "" ∧
      (normalize_detail {} {}).rationale = "" ∧
      (normalize_detail {} {}).media_stimulus = [] ∧
      (normalize_detail {} {}).media_stem = [] ∧
      (normalize_detail {} {}).media_rationale = []) ∧
    ((mkChoice [] [] 0 {}).text = "" ∧ (mkChoice [] [] 0 {}).media = []) :=
  ⟨normalizer_degrades_gracefully.2.2.1 {} {} rfl rfl rfl,
   normalizer_degrades_gracefully.2.2.2
     { answerOptions := some [{}] } {} (mkChoice [] [] 0 {})
     (by rw [normalize_detail_choices]; exact List.mem_cons_self _ _) rfl⟩

/-- Claim C3: a cached record is returned without any fetch; the fetcher is
invoked exactly on a cache miss; a successfully fetched record is written to
the cache exactly once (one new entry); and a second lookup for the same
identifier after that write performs no fetch. -/
theorem cache_read_through :
    (∀ (c : Cache) (id : String) (rs : List Response) (d : Detail),
        cache_read c id = some (.good d) →
        get_detail_with_cache c id rs = ⟨.ok (some d), c, false⟩) ∧
    (∀ (c : Cache) (id : String) (rs : List Response),
        (get_detail_with_cache c id rs).fetched = true ↔ cache_read c id = none) ∧
    (∀ (c : Cache) (id : String) (rs : List Response) (d : Detail),
        cache_read c id = none → fetch_detail_strong rs 5 = some d →
        get_detail_with_cache c id rs = ⟨.ok (some d), (id, .good d) :: c, true⟩) ∧
    (∀ (c : Cache) (id : String) (rs rs2 : List Response) (d : Detail),
        cache_read c id = none → fetch_detail_strong rs 5 = some d →
        (get_detail_with_cache (get_detail_with_cache c id rs).cache id rs2).fetched
          = false) := by
  refine ⟨?_, ?_, ?_, ?_⟩
  · intro c id rs d h; simp [get_detail_with_cache, h]
  · intro c id rs
    cases h : cache_read c id with
    | none =>
        simp only [get_detail_with_cache, h]
        cases hf : fetch_detail_strong rs 5 <;> simp
    | some e => cases e <;> simp [get_detail_with_cache, h]
  · intro c id rs d h hf; simp [get_detail_with_cache, h, hf]
  · intro c id rs rs2 d h hf
    have h3 : get_detail_with_cache c id rs = ⟨.ok (some d), (id, .good d) :: c, true⟩ := by
      simp [get_detail_with_cache, h, hf]
    rw [h3]
    simp [get_detail_with_cache, cache_read]

def dC3 : Detail := { externalid := some "e3" }

/-- Witness for C3: a concrete hit returns the cached record with no fetch,
and a concrete miss followed by a successful fetch writes one entry. -/
theorem cache_read_through_witness :
    get_detail_with_cache [("a", .good dC3)] "a" [] = ⟨.ok (some dC3), [("a", .good dC3)], false⟩ ∧
    get_detail_with_cache [] "b"
        [Response.ok { detail := dC3, nosuchkey := false, has_content_key := true }] =
      ⟨.ok (some dC3), [("b", .good dC3)], true⟩ ∧
    (get_detail_with_cache
        (get_detail_with_cache [] "b"
          [Response.ok { detail := dC3, nosuchkey := false, has_content_key := true }]).cache
        "b" []).fetched = false :=
  ⟨cache_read_through.1 [("a", .good dC3)] "a" [] dC3 rfl,
   cache_read_through.2.2.1 [] "b" _ dC3 rfl rfl,
   cache_read_through.2.2.2 [] "b" _ [] dC3 rfl rfl⟩

/-- Claim C4 counterexample: the claim says a corrupt cache entry is treated
as a cache miss (falling through to refetch) and never raises; in the source
`get_detail_with_cache` calls `json.load` on the cached file with no
exception handler, so a corrupt entry raises (modelled as `Except.error`)
and does not fall through to a fetch. -/
theorem corrupt_cache_entry_raises :
    (get_detail_with_cache [("x", CacheEntry.corrupt)] "x" []).result = .error () ∧
    (get_detail_with_cache [("x", CacheEntry.corrupt)] "x" []).fetched = false :=
  ⟨rfl, rfl⟩

/-- Claim C4 (amended): a corrupt or unreadable cache entry makes the
cached-detail lookup raise the deserialization error (aborting processing of
that item), leaving the cache unchanged and performing no refetch. -/
theorem corrupt_cache_entry_aborts_lookup :
    ∀ (c : Cache) (id : String) (rs : List Response),
      cache_read c id = some .corrupt →
      get_detail_with_cache c id rs = ⟨.error (), c, false⟩ := by
  intro c id rs h; simp [get_detail_with_cache, h]

/-- Witness for the amended C4. -/
theorem corrupt_cache_entry_aborts_lookup_witness :
    get_detail_with_cache [("y", CacheEntry.corrupt)] "y" [] =
      ⟨.error (), [("y", CacheEntry.corrupt)], false⟩ :=
  corrupt_cache_entry_aborts_lookup [("y", CacheEntry.corrupt)] "y" [] rfl

/-- Claim C8: a payload matching the "key not found" sentinel makes the
fetch return the absent outcome immediately, the cache gains an entry only
when the fetch returns a record, and in particular a sentinel response on a
cache miss leaves the cache unchanged. -/
theorem nosuchkey_never_cached :
    (∀ (p : Payload) (rest : List Response) (t : Nat),
        p.nosuchkey = true →
        fetch_detail_strong (.ok p :: rest) (t + 1) = none) ∧
    (∀ (c : Cache) (id : String) (rs : List Response),
        (get_detail_with_cache c id rs).cache = c ∨
        ∃ d, fetch_detail_strong rs 5 = some d ∧
          (get_detail_with_cache c id rs).cache = (id, .good d) :: c) ∧
    (∀ (c : Cache) (id : String) (p : Payload) (rest : List Response),
        p.nosuchkey = true → cache_read c id = none →
        (get_detail_with_cache c id (.ok p :: rest)).cache = c) := by
  have hfetch : ∀ (p : Payload) (rest : List Response) (t : Nat),
      p.nosuchkey = true → fetch_detail_strong (.ok p :: rest) (t + 1) = none := by
    intro p rest t h; simp [fetch_detail_strong, h]
  refine ⟨hfetch, ?_, ?_⟩
  · intro c id rs
    cases h : cache_read c id with
    | none =>
        cases hf : fetch_detail_strong rs 5 with
        | none => left; simp [get_detail_with_cache, h, hf]
        | some d => right; exact ⟨d, rfl, by simp [get_detail_with_cache, h, hf]⟩
    | some e => cases e <;> simp [get_detail_with_cache, h]
  · intro c id p rest hp h
    simp [get_detail_with_cache, h, hfetch p rest 4 hp]

/-- Witness for C8: a concrete sentinel payload yields `none` from the fetch
and writes nothing to the cache. -/
theorem nosuchkey_never_cached_witness :
    fetch_detail_strong [Response.ok (Payload.mk { externalid := some "e8" } true true)]
        5 = none ∧
    (get_detail_with_cache [] "z"
        [Response.ok (Payload.mk { externalid := some "e8" } true true)]).cache = [] :=
  ⟨nosuchkey_never_cached.1 _ [] 4 rfl,
   nosuchkey_never_cached.2.2 [] "z" _ [] rfl rfl⟩

/-! ## Driver lemmas -/

theorem doneSet_append (l1 l2 : List NormalizedRecord) :
    doneSet (l1 ++ l2) = doneSet l1 ++ doneSet l2 := by
  simp [doneSet]

theorem normalize_detail_external_id (d : Detail) (m : ListMeta) :
    (normalize_detail d m).external_id = m.external_id := rfl

theorem mem_map_snd (l : List (String × String)) (x : String) :
    x ∈ l.map Prod.snd ↔ ∃ r, (r, x) ∈ l := by
  constructor
  · intro h
    obtain ⟨p, hp, he⟩ := List.mem_map.1 h
    exact ⟨p.1, by simpa [← he] using hp⟩
  · rintro ⟨r, hr⟩
    exact List.mem_map.2 ⟨(r, x), hr, rfl⟩

/-- The invariant the primary pass maintains: the output's truthy external
identifiers are pairwise distinct and all tracked by the resumption set. -/
def DriverInv (st : DriverState) : Prop :=
  (doneSet st.normalized).Nodup ∧ ∀ x ∈ doneSet st.normalized, x ∈ st.seen

theorem step_preserves_inv (resp : String → List Response) (st st2 : DriverState)
    (m : ListMeta) (h : step resp st m = .ok st2) (hinv : DriverInv st) :
    DriverInv st2 := by
  unfold step at h
  split at h
  · cases h; exact hinv
  · rename_i ext hu
    split at h
    · cases h; exact hinv
    · rename_i hseen
      split at h
      · exact Except.noConfusion h
      · cases h; exact hinv
      · rename_i d c2 f hlk
        cases h
        constructor
        · show (doneSet (st.normalized ++ [normalize_detail d m])).Nodup
          rw [doneSet_append]
          have hsingle : doneSet [normalize_detail d m] = [ext] := by
            simp [doneSet, normalize_detail_external_id, hu]
          have hiff : (doneSet st.normalized ++ [ext]).Nodup ↔
              (doneSet st.normalized).Nodup ∧ ext ∉ doneSet st.normalized := by
            simp [List.nodup_append]
          rw [hsingle, hiff]
          exact ⟨hinv.1, fun hmem => hseen (hinv.2 ext hmem)⟩
        · show ∀ x ∈ doneSet (st.normalized ++ [normalize_detail d m]),
            x ∈ st.seen ++ [ext]
          intro x hx
          rw [doneSet_append] at hx
          rcases List.mem_append.1 hx with hx | hx
          · exact List.mem_append.2 (Or.inl (hinv.2 x hx))
          · have : x = ext := by
              simpa [doneSet, normalize_detail_external_id, hu] using hx
            exact List.mem_append.2 (Or.inr (by simp [this]))

theorem primaryPass_preserves_inv (resp : String → List Response) :
    ∀ (records : List ListMeta) (st st2 : DriverState),
      DriverInv st → primaryPass resp records st = .ok st2 → DriverInv st2 := by
  intro records
  induction records with
  | nil =>
      intro st st2 h1 h2
      cases h2
      exact h1
  | cons m ms ih =>
      intro st st2 h1 h2
      rw [primaryPass, List.foldlM_cons] at h2
      cases hstep : step resp st m with
      | error e => rw [hstep] at h2; exact Except.noConfusion h2
      | ok s1 =>
          rw [hstep] at h2
          exact ih s1 st2 (step_preserves_inv resp st s1 m hstep h1) h2

/-- Claim C7 counterexample: with a work queue repeating external identifier
"x" and a network that fails in the primary pass but succeeds in the
recovery sweep, the final output holds two records with external identifier
"x" (`doneSet` lists the output's truthy identifiers, here `["x", "x"]`) —
the resumption set does not prevent the sweep from duplicating. -/
theorem duplicate_ids_after_recovery_sweep :
    (run_main (fun _ => []) (fun _ => [Response.ok
        { detail := {}, nosuchkey := false, has_content_key := true }])
        (fun l => l) [{ external_id := some "x" }, { external_id := some "x" }]
        [] ([] : Cache)).map (fun r => doneSet r.normalized) = .ok ["x", "x"] := rfl

/-- Claim C7 (amended): within the primary pass the guarantee holds — a work
item whose identifier is already in the resumption set is skipped entirely,
and the primary pass never produces duplicate external identifiers in the
output (starting from a persisted output whose identifiers are distinct, as
`run_main` rebuilds the resumption set from it).  The recovery sweep checks
only against the pre-sweep output, so it can append duplicates when the same
identifier was recorded as failed more than once. -/
theorem primary_pass_keeps_ids_unique :
    (∀ (resp : String → List Response) (st : DriverState) (m : ListMeta) (ext : String),
        usable m.external_id = some ext → ext ∈ st.seen → step resp st m = .ok st) ∧
    (∀ (resp : String → List Response) (records : List ListMeta)
        (n₀ : List NormalizedRecord) (c₀ : Cache) (st : DriverState),
        (doneSet n₀).Nodup →
        primaryPass resp records ⟨n₀, doneSet n₀, c₀, []⟩ = .ok st →
        (doneSet st.normalized).Nodup) := by
  constructor
  · intro resp st m ext h1 h2
    simp [step, h1, h2]
  · intro resp records n₀ c₀ st h1 h2
    exact (primaryPass_preserves_inv resp records _ st ⟨h1, fun x hx => hx⟩ h2).1

/-- Witness for the amended C7: a concrete item already in the resumption
set is skipped, and a concrete primary pass keeps identifiers distinct. -/
theorem primary_pass_keeps_ids_unique_witness :
    step (fun _ => []) ⟨[], ["x"], [], []⟩ { external_id := some "x" } =
      .ok ⟨[], ["x"], [], []⟩ ∧
    (doneSet (⟨[], [], [], [("missing_or_timeout", "y")]⟩ : DriverState).normalized).Nodup :=
  ⟨primary_pass_keeps_ids_unique.1 (fun _ => []) ⟨[], ["x"], [], []⟩
      { external_id := some "x" } "x" rfl (by simp),
   primary_pass_keeps_ids_unique.2 (fun _ => []) [{ external_id := some "y" }]
      [] ([] : Cache) ⟨[], [], [], [("missing_or_timeout", "y")]⟩ (by simp [doneSet]) rfl⟩

/-- Claim C2 counterexample: a work item with no usable external identifier
is recorded as a `missing_external_id` failure under its fallback
identifier "q1", yet the recovery sweep retries "q1" — the sweep does not
filter on the recorded failure reason. -/
theorem sweep_retries_missing_identifier_failure :
    (run_main (fun _ => []) (fun _ => [Response.ok
        { detail := {}, nosuchkey := false, has_content_key := true }])
        (fun l => l) [{ questionId := some "q1" }] [] ([] : Cache)).map
      (fun r => (r.failures, r.retriedIds)) =
      .ok ([("missing_external_id", "q1")], ["q1"]) := rfl

/-- Claim C2 (amended): the recovery sweep retries exactly the identifiers
of recorded failures — regardless of the recorded reason (the source records
both confirmed-absent and exhausted-retries outcomes as
`missing_or_timeout`, and retries `missing_external_id` entries under their
fallback identifier too) — excluding those already among the output's
external identifiers. -/
theorem sweep_retries_every_unfinished_failure :
    ∀ (resp retryResp : String → List Response) (shuffle : List String → List String)
      (records : List ListMeta) (n₀ : List NormalizedRecord) (c₀ : Cache)
      (st : DriverState) (res : RunResult) (x : String),
      (∀ l : List String, List.Perm (shuffle l) l) →
      primaryPass resp records ⟨n₀, doneSet n₀, c₀, []⟩ = .ok st →
      run_main resp retryResp shuffle records n₀ c₀ = .ok res →
      (x ∈ res.retriedIds ↔
        (∃ reason, (reason, x) ∈ st.failures) ∧ x ∉ doneSet st.normalized) := by
  intro resp retryResp shuffle records n₀ c₀ st res x hperm hpp hrun
  simp only [run_main] at hrun
  rw [hpp] at hrun
  simp only [Except.map] at hrun
  cases hrun
  show x ∈ shuffle ((st.failures.map Prod.snd).filter
      (fun e => !(doneSet st.normalized).contains e)) ↔ _
  rw [(hperm _).mem_iff, List.mem_filter, mem_map_snd]
  simp

def mC2w : ListMeta := { questionId := some "q2" }

def stC2w : DriverState := ⟨[], [], [], [("missing_external_id", "q2")]⟩

def resC2w : RunResult := ⟨[], [("missing_external_id", "q2")], ["q2"]⟩

/-- Witness for the amended C2: the characterization instantiated on a
concrete run with one missing-identifier failure. -/
theorem sweep_retries_every_unfinished_failure_witness :
    "q2" ∈ resC2w.retriedIds ↔
      (∃ reason, (reason, "q2") ∈ stC2w.failures) ∧
      "q2" ∉ doneSet stC2w.normalized :=
  sweep_retries_every_unfinished_failure (fun _ => []) (fun _ => []) (fun l => l)
    [mC2w] [] ([] : Cache) stC2w resC2w "q2" (fun l => List.Perm.refl l) rfl rfl

end SatQbank
